import Mathlib

/-!
# Configuration loader of the relay (`relay/config.go`)

A shallow embedding of `LoadConfigFile` and of the configuration schema it fills.

* Go slices are lists, Go strings are `String`, Go `int` is `Int` kept inside the
  64-bit range: `strconv.Atoi` rejects what does not fit and `i++` wraps around.
* The file system, the TOML decoder, the process environment and `strconv.Quote`
  are not code of this repository; they are the fields of `World`.
* A call either returns, panics (index out of range) or is still inside the
  synthesis loop when the fuel is used up: see `Run`.
-/

namespace Relay

/-! ## Configuration schema (config.go, lines 12-86) -/

/-- One UDP backend target. -/
structure UDPOutputConfig where
  Name : String
  Location : String
  MTU : Int
deriving DecidableEq, Repr

/-- One UDP relay listener. -/
structure UDPConfig where
  Name : String
  Addr : String
  Precision : String
  ReadBuffer : Int
  Outputs : List UDPOutputConfig
deriving DecidableEq, Repr

/-- One HTTP backend target. -/
structure HTTPOutputConfig where
  Name : String
  Location : String
  Timeout : String
  BufferSizeMB : Int
  MaxBatchKB : Int
  MaxDelayInterval : String
  SkipTLSVerification : Bool
deriving DecidableEq, Repr

/-- One HTTP relay listener. -/
structure HTTPConfig where
  Name : String
  Addr : String
  SSLCombinedPem : String
  DefaultRetentionPolicy : String
  Outputs : List HTTPOutputConfig
deriving DecidableEq, Repr

/-- Root object of the configuration. -/
structure Config where
  HTTPRelays : List HTTPConfig
  UDPRelays : List UDPConfig
deriving DecidableEq, Repr

/-- The zero value of `Config`: the named result `cfg` before anything is decoded. -/
def Config.zero : Config := ⟨[], []⟩

/-! ## Go run-time pieces used by the loader -/

/-- The two sentinel errors of `strconv`. -/
inductive ErrKind where
  | ErrSyntax
  | ErrRange
deriving DecidableEq, Repr

/-- Text of a `strconv` sentinel error. -/
def ErrKind.Error : ErrKind → String
  | .ErrSyntax => "invalid syntax"
  | .ErrRange => "value out of range"

/-- The `*strconv.NumError` value: failing function, input text, reason. -/
structure NumError where
  Func : String
  Num : String
  Err : ErrKind
deriving DecidableEq, Repr

/-- The method `(*NumError).Error`; `quote` stands for `strconv.Quote`. -/
def NumError.Error (quote : String → String) (e : NumError) : String :=
  "strconv." ++ e.Func ++ ": parsing " ++ quote e.Num ++ ": " ++ e.Err.Error

/-- Error values seen by the caller: those handed over by `os.Open` or by the
decoder (kept with their text), and those built here by `errors.New` and
`fmt.Errorf`, which are both an `*errors.errorString`. -/
inductive GoError where
  | external (text : String)
  | errorString (s : String)
deriving DecidableEq, Repr

/-- The method `Error` of an error value. -/
def GoError.Error : GoError → String
  | .external text => text
  | .errorString s => s

/-- Largest value of a 64-bit Go `int`. -/
def maxInt : Int := 9223372036854775807

/-- Smallest value of a 64-bit Go `int`. -/
def minInt : Int := -9223372036854775808

/-- Two's-complement wrap-around of an integer result into the 64-bit `int` range. -/
def wrapInt (z : Int) : Int := (z + 9223372036854775808) % 18446744073709551616 - 9223372036854775808

/-- Digit loop of `strconv.ParseUint` in base 10 with 64 bits: a byte that is not a
decimal digit is a syntax error, and the first digit that takes the value out of
`uint64` is a range error (reported before later bytes are looked at). -/
def parseUintDigits : List Char → Nat → Except ErrKind Nat
  | [], n => .ok n
  | c :: cs, n =>
    if c.isDigit then
      if 10 * n + (c.toNat - 48) ≥ 18446744073709551616 then .error .ErrRange
      else parseUintDigits cs (10 * n + (c.toNat - 48))
    else .error .ErrSyntax

/-- Sign and range handling of `strconv.ParseInt(s, 10, 0)` on the bytes of `s`. -/
def parseIntChars (cs : List Char) : Except ErrKind Int :=
  match cs with
  | [] => .error .ErrSyntax
  | c :: rest =>
    let neg := c = '-'
    let ds := if c = '+' ∨ c = '-' then rest else cs
    match ds with
    | [] => .error .ErrSyntax
    | _ :: _ =>
      match parseUintDigits ds 0 with
      | .error k => .error k
      | .ok un =>
        if neg then
          if un > 9223372036854775808 then .error .ErrRange else .ok (-(un : Int))
        else
          if un ≥ 9223372036854775808 then .error .ErrRange else .ok (un : Int)

/-- The function `strconv.Atoi` on a 64-bit platform: an optional sign followed by
one or more decimal digits, the value inside the `int` range. -/
def Atoi (s : String) : Except NumError Int :=
  match parseIntChars s.data with
  | .error k => .error ⟨"Atoi", s, k⟩
  | .ok v => .ok v

/-- Decimal text of an integer, as the verb `%d` of `fmt.Sprintf` prints it. -/
def fmtD : Int → String
  | .ofNat n => Nat.repr n
  | .negSucc n => "-" ++ Nat.repr (n + 1)

/-- What the loader sees of the outside: `os.Open` (the contents on success),
the TOML decoder run on the zero `Config` (the decoded value and the error, if
any), the process environment, and `strconv.Quote`. -/
structure World where
  openFile : String → Except GoError String
  decode : String → Config × Option GoError
  environ : String → Option String
  quote : String → String

/-- The function `os.Getenv`: the value of the variable, empty when it is unset. -/
def Getenv (w : World) (key : String) : String :=
  (w.environ key).getD ""

/-- Outcome of running code that may loop: it returned a value, it panicked, or
the loop was still running when the fuel ran out. -/
inductive Run (α : Type) where
  | done (a : α)
  | panicked
  | outOfFuel
deriving DecidableEq, Repr

/-! ## LoadConfigFile (config.go, lines 88-130) -/

/-- The literal `HTTPOutputConfig` of lines 119-123 for loop index `i`. -/
def outputConfig (i : Int) (nimbusDomain : String) : HTTPOutputConfig :=
  { Name := "influxdb" ++ fmtD i
    Location := "http://influxdb" ++ fmtD i ++ "." ++ nimbusDomain ++ "/write"
    Timeout := ""
    BufferSizeMB := 100
    MaxBatchKB := 0
    MaxDelayInterval := ""
    SkipTLSVerification := false }

/-- Line 124: `cfg.HTTPRelays[0].Outputs = append(cfg.HTTPRelays[0].Outputs, o)`;
`none` is the index-out-of-range panic on an empty `HTTPRelays`. -/
def appendOutput (cfg : Config) (o : HTTPOutputConfig) : Option Config :=
  match cfg.HTTPRelays with
  | [] => none
  | r :: rs => some { cfg with HTTPRelays := { r with Outputs := r.Outputs ++ [o] } :: rs }

/-- The loop of lines 118-125, `for i := 1; i <= influxdbCount; i++`, entered at
index `i` with configuration `cfg`; one unit of fuel per evaluation of the
loop condition. -/
def synthLoop (nimbusDomain : String) (influxdbCount : Int) : Nat → Int → Config → Run Config
  | 0, _, _ => .outOfFuel
  | fuel + 1, i, cfg =>
    if i ≤ influxdbCount then
      match appendOutput cfg (outputConfig i nimbusDomain) with
      | none => .panicked
      | some cfg1 => synthLoop nimbusDomain influxdbCount fuel (wrapInt (i + 1)) cfg1
    else .done cfg

/-- Lines 101-125: validation of the decoded configuration, resolution of the two
environment variables and synthesis of the outputs, as a function of the
in-memory `Config` and the environment. -/
def validateAndSynthesize (w : World) (fuel : Nat) (cfg : Config) : Run (Config × Option GoError) :=
  if cfg.HTTPRelays.length ≠ 1 then
    .done (cfg, some (.errorString "HTTP Relays must contain exactly one output for Thermeon's relay fork"))
  else
    let nimbusDomain := Getenv w "NIMBUS_DOMAIN"
    if nimbusDomain = "" then
      .done (cfg, some (.errorString "NIMBUS_DOMAIN env var must be set"))
    else
      match Atoi (Getenv w "INFLUXDB_INSTANCE_COUNT") with
      | .error err =>
        .done (cfg, some (.errorString ("Error with INFLUXDB_INSTANCE_COUNT env var: " ++ err.Error w.quote)))
      | .ok influxdbCount =>
        match synthLoop nimbusDomain influxdbCount fuel 1 cfg with
        | .done cfg1 => .done (cfg1, none)
        | .panicked => .panicked
        | .outOfFuel => .outOfFuel

/-- LoadConfigFile parses the specified file into a Config object. -/
def LoadConfigFile (w : World) (fuel : Nat) (filename : String) : Run (Config × Option GoError) :=
  match w.openFile filename with
  | .error err => .done (Config.zero, some err)
  | .ok f =>
    match w.decode f with
    | (cfg, some err) => .done (cfg, some err)
    | (cfg, none) => validateAndSynthesize w fuel cfg

/-! ## Specification-side and auxiliary definitions -/

/-- The synthesized entries in the words of the specification: for `i` from 1
through `n`, in increasing order, the entry named `influxdb` followed by the
decimal text of `i`, located at `http://influxdb<i>.<domain>/write`, with
`BufferSizeMB = 100` and every other field at its zero value. -/
def specOutputs (domain : String) (n : Nat) : List HTTPOutputConfig :=
  (List.range' 1 n).map (fun (i : Nat) =>
    { Name := "influxdb" ++ Nat.repr i
      Location := "http://influxdb" ++ Nat.repr i ++ "." ++ domain ++ "/write"
      Timeout := ""
      BufferSizeMB := 100
      MaxBatchKB := 0
      MaxDelayInterval := ""
      SkipTLSVerification := false })

/-- The entries appended by `k` consecutive iterations of the loop that start at
index `i`. -/
def synthFrom (nimbusDomain : String) (i : Int) (k : Nat) : List HTTPOutputConfig :=
  (List.range k).map (fun (j : Nat) => outputConfig (i + (j : Int)) nimbusDomain)

/-- The reading of "parses as a base-10 integer" from the text alone: an optional
sign followed by one or more decimal digits. -/
def isDecimalInteger (s : String) : Bool :=
  match s.data with
  | [] => false
  | c :: rest =>
    let ds := if c = '+' ∨ c = '-' then rest else c :: rest
    !ds.isEmpty && ds.all Char.isDigit

/-- Value of a list of decimal digit characters, most significant first. -/
def digitsValue (cs : List Char) : Nat :=
  cs.foldl (fun acc c => 10 * acc + (c.toNat - 48)) 0

/-! ## Concrete inputs used to instantiate the theorems -/

/-- A decoded file with one HTTP relay that declares one output, and one UDP relay. -/
def demoConfig : Config :=
  { HTTPRelays :=
      [{ Name := "example-http", Addr := "127.0.0.1:9096", SSLCombinedPem := "",
         DefaultRetentionPolicy := "",
         Outputs := [{ Name := "local1", Location := "http://127.0.0.1:8086/write",
                       Timeout := "10s", BufferSizeMB := 0, MaxBatchKB := 0,
                       MaxDelayInterval := "", SkipTLSVerification := false }] }]
    UDPRelays :=
      [{ Name := "example-udp", Addr := "127.0.0.1:9096", Precision := "", ReadBuffer := 0,
         Outputs := [{ Name := "local1", Location := "127.0.0.1:8089", MTU := 512 }] }] }

/-- The configuration `demoConfig` with `extra` appended to the outputs of its HTTP relay. -/
def demoConfigWith (extra : List HTTPOutputConfig) : Config :=
  { HTTPRelays :=
      [{ Name := "example-http", Addr := "127.0.0.1:9096", SSLCombinedPem := "",
         DefaultRetentionPolicy := "",
         Outputs := [{ Name := "local1", Location := "http://127.0.0.1:8086/write",
                       Timeout := "10s", BufferSizeMB := 0, MaxBatchKB := 0,
                       MaxDelayInterval := "", SkipTLSVerification := false }] ++ extra }]
    UDPRelays :=
      [{ Name := "example-udp", Addr := "127.0.0.1:9096", Precision := "", ReadBuffer := 0,
         Outputs := [{ Name := "local1", Location := "127.0.0.1:8089", MTU := 512 }] }] }

/-- A decoded file with two HTTP relays. -/
def twoRelayConfig : Config :=
  { HTTPRelays := demoConfig.HTTPRelays ++ demoConfig.HTTPRelays, UDPRelays := [] }

/-- A stand-in for `strconv.Quote` that only adds the surrounding double quotes. -/
def demoQuote (s : String) : String :=
  String.singleton (Char.ofNat 34) ++ s ++ String.singleton (Char.ofNat 34)

/-- A world in which only `relay.toml` exists, decoding it gives `decoded`, and the
two environment variables hold `domain` and `count` (`none` when unset). -/
def demoWorld (decoded : Config × Option GoError) (domain count : Option String) : World :=
  { openFile := fun p =>
      if p = "relay.toml" then .ok "contents of relay.toml"
      else .error (.external ("open " ++ p ++ ": no such file or directory"))
    decode := fun _ => decoded
    environ := fun k =>
      if k = "NIMBUS_DOMAIN" then domain
      else if k = "INFLUXDB_INSTANCE_COUNT" then count
      else none
    quote := demoQuote }

/-! ## Arithmetic and loop lemmas -/

theorem synthFrom_zero (d : String) (i : Int) : synthFrom d i 0 = [] := rfl

theorem synthFrom_succ (d : String) (i : Int) (k : Nat) :
    synthFrom d i (k + 1) = outputConfig i d :: synthFrom d (i + 1) k := by
  simp only [synthFrom, List.range_succ_eq_map, List.map_cons, List.map_map]
  congr 1
  · simp
  · apply List.map_congr_left
    intro j _
    simp only [Function.comp, Nat.succ_eq_add_one, Nat.cast_add, Nat.cast_one]
    congr 1
    omega

theorem wrapInt_of_range (z : Int) (h1 : minInt ≤ z) (h2 : z ≤ maxInt) : wrapInt z = z := by
  unfold wrapInt
  unfold minInt at h1
  unfold maxInt at h2
  omega

theorem wrapInt_range (z : Int) : minInt ≤ wrapInt z ∧ wrapInt z ≤ maxInt := by
  unfold wrapInt minInt maxInt
  omega

theorem synthLoop_eq (d : String) (n : Int) (hn : n < maxInt) (rs : List HTTPConfig)
    (u : List UDPConfig) :
    ∀ (k fuel : Nat) (i : Int) (r : HTTPConfig), (n + 1 - i).toNat = k → minInt ≤ i →
      synthLoop d n fuel i ⟨r :: rs, u⟩ =
        if k < fuel then
          .done ⟨{ r with Outputs := r.Outputs ++ synthFrom d i k } :: rs, u⟩
        else .outOfFuel := by
  intro k
  induction k with
  | zero =>
    intro fuel i r hk hi
    cases fuel with
    | zero => simp [synthLoop]
    | succ f =>
      have hgt : ¬ i ≤ n := by omega
      simp [synthLoop, hgt, synthFrom_zero]
  | succ k ih =>
    intro fuel i r hk hi
    cases fuel with
    | zero => simp [synthLoop]
    | succ f =>
      have hle : i ≤ n := by omega
      have hw : wrapInt (i + 1) = i + 1 := by
        apply wrapInt_of_range
        · omega
        · omega
      simp only [synthLoop, hle, if_true, appendOutput, hw]
      rw [ih f (i + 1) _ (by omega) (by omega)]
      simp [synthFrom_succ]

theorem synthLoop_maxInt (d : String) (rs : List HTTPConfig) (u : List UDPConfig) :
    ∀ (fuel : Nat) (i : Int) (r : HTTPConfig), i ≤ maxInt →
      synthLoop d maxInt fuel i ⟨r :: rs, u⟩ = .outOfFuel := by
  intro fuel
  induction fuel with
  | zero => intro i r _; rfl
  | succ f ih =>
    intro i r hi
    simp only [synthLoop, hi, if_true, appendOutput]
    exact ih _ _ (wrapInt_range _).2

theorem toDigitsCore_append :
    ∀ (fuel n : Nat) (ds : List Char),
      Nat.toDigitsCore 10 fuel n ds = Nat.toDigitsCore 10 fuel n [] ++ ds := by
  intro fuel
  induction fuel with
  | zero => intro n ds; simp [Nat.toDigitsCore]
  | succ f ih =>
    intro n ds
    simp only [Nat.toDigitsCore]
    split
    · simp
    · rw [ih (n / 10) (Nat.digitChar (n % 10) :: ds), ih (n / 10) [Nat.digitChar (n % 10)]]
      simp

theorem digitChar_value (k : Nat) (hk : k < 10) : (Nat.digitChar k).toNat - 48 = k := by
  interval_cases k <;> rfl

theorem digitsValue_append (xs : List Char) (c : Char) :
    digitsValue (xs ++ [c]) = 10 * digitsValue xs + (c.toNat - 48) := by
  simp [digitsValue, List.foldl_append]

theorem digitsValue_toDigitsCore :
    ∀ (fuel n : Nat), n < fuel → digitsValue (Nat.toDigitsCore 10 fuel n []) = n := by
  intro fuel
  induction fuel with
  | zero => intro n h; omega
  | succ f ih =>
    intro n h
    simp only [Nat.toDigitsCore]
    split
    · rename_i h0
      have hn : n < 10 := by omega
      have hm : n % 10 = n := Nat.mod_eq_of_lt hn
      simp [digitsValue, hm, digitChar_value n hn]
    · rename_i h0
      rw [toDigitsCore_append, digitsValue_append, ih (n / 10) (by omega),
        digitChar_value (n % 10) (Nat.mod_lt _ (by decide))]
      omega

theorem digitsValue_repr (n : Nat) : digitsValue (Nat.repr n).data = n := by
  simp only [Nat.repr, Nat.toDigits, List.asString]
  exact digitsValue_toDigitsCore (n + 1) n (Nat.lt_succ_self n)

theorem Nat_repr_injective (a b : Nat) (h : Nat.repr a = Nat.repr b) : a = b := by
  have := congrArg (fun s => digitsValue s.data) h
  simpa [digitsValue_repr] using this

theorem fmtD_ofNat (n : Nat) : fmtD (n : Int) = Nat.repr n := rfl

theorem fmtD_injective_nonneg (i j : Int) (hi : 0 ≤ i) (hj : 0 ≤ j) (h : fmtD i = fmtD j) :
    i = j := by
  obtain ⟨a, rfl⟩ := Int.eq_ofNat_of_zero_le hi
  obtain ⟨b, rfl⟩ := Int.eq_ofNat_of_zero_le hj
  rw [fmtD_ofNat, fmtD_ofNat] at h
  exact congrArg _ (Nat_repr_injective a b h)

theorem synthFrom_one_eq_specOutputs (d : String) (n : Nat) :
    synthFrom d 1 n = specOutputs d n := by
  simp only [synthFrom, specOutputs, List.range'_eq_map_range, List.map_map]
  apply List.map_congr_left
  intro j _
  have h : (1 : Int) + (j : Int) = ((1 + j : Nat) : Int) := by push_cast; rfl
  simp only [Function.comp, outputConfig, h, fmtD_ofNat]

theorem parseIntChars_range (cs : List Char) (n : Int) (h : parseIntChars cs = .ok n) :
    minInt ≤ n ∧ n ≤ maxInt := by
  unfold parseIntChars at h
  unfold minInt maxInt
  split at h
  · cases h
  · simp only at h
    split at h
    · cases h
    · split at h
      · cases h
      · split at h
        · split at h
          · cases h
          · cases h; omega
        · split at h
          · cases h
          · cases h; omega

theorem Atoi_range (s : String) (n : Int) (h : Atoi s = .ok n) : minInt ≤ n ∧ n ≤ maxInt := by
  unfold Atoi at h
  cases hp : parseIntChars s.data with
  | error k => rw [hp] at h; cases h
  | ok v =>
    rw [hp] at h
    cases h
    exact parseIntChars_range _ _ hp

theorem parseUintDigits_error_of_not_all_digits :
    ∀ (ds : List Char) (n : Nat), ds.all Char.isDigit = false →
      ∃ k, parseUintDigits ds n = .error k := by
  intro ds
  induction ds with
  | nil => intro n h; simp at h
  | cons c cs ih =>
    intro n h
    by_cases hc : c.isDigit = true
    · have hcs : cs.all Char.isDigit = false := by
        simpa [List.all_cons, hc] using h
      simp only [parseUintDigits, hc, if_true]
      split
      · exact ⟨_, rfl⟩
      · exact ih _ hcs
    · exact ⟨.ErrSyntax, by simp only [parseUintDigits, hc]; rfl⟩

theorem Atoi_error_of_not_decimal (s : String) (h : isDecimalInteger s = false) :
    ∃ k, Atoi s = .error ⟨"Atoi", s, k⟩ := by
  unfold isDecimalInteger at h
  unfold Atoi parseIntChars
  cases hdata : s.data with
  | nil => exact ⟨.ErrSyntax, rfl⟩
  | cons c rest =>
    rw [hdata] at h
    simp only at h
    cases hds : (if c = '+' ∨ c = '-' then rest else c :: rest) with
    | nil => exact ⟨.ErrSyntax, by simp only [hds]⟩
    | cons x xs =>
      rw [hds] at h
      have hall : (x :: xs).all Char.isDigit = false := by simpa using h
      obtain ⟨k, hk⟩ := parseUintDigits_error_of_not_all_digits (x :: xs) 0 hall
      exact ⟨k, by simp only [hds, hk]⟩

/-! ## The validate-and-synthesize step -/

theorem validateAndSynthesize_count (w : World) (fuel : Nat) (r : HTTPConfig)
    (u : List UDPConfig) (n : Int) (hd : Getenv w "NIMBUS_DOMAIN" ≠ "")
    (hc : Atoi (Getenv w "INFLUXDB_INSTANCE_COUNT") = .ok n) (hn : n < maxInt) :
    validateAndSynthesize w fuel ⟨[r], u⟩ =
      if n.toNat < fuel then
        .done (⟨[{ r with Outputs :=
          r.Outputs ++ specOutputs (Getenv w "NIMBUS_DOMAIN") n.toNat }], u⟩, none)
      else .outOfFuel := by
  have hloop := synthLoop_eq (Getenv w "NIMBUS_DOMAIN") n hn [] u n.toNat fuel 1 r
    (by omega) (by unfold minInt; omega)
  by_cases hf : n.toNat < fuel
  · simp only [hf, if_true] at hloop
    simp only [validateAndSynthesize, List.length_singleton, ne_eq, not_true_eq_false,
      if_false, hd, hc, hloop, synthFrom_one_eq_specOutputs, hf, if_true]
  · simp only [hf, if_false] at hloop
    simp only [validateAndSynthesize, List.length_singleton, ne_eq, not_true_eq_false,
      if_false, hd, hc, hloop, hf]

theorem validateAndSynthesize_maxInt (w : World) (fuel : Nat) (r : HTTPConfig)
    (u : List UDPConfig) (hd : Getenv w "NIMBUS_DOMAIN" ≠ "")
    (hc : Atoi (Getenv w "INFLUXDB_INSTANCE_COUNT") = .ok maxInt) :
    validateAndSynthesize w fuel ⟨[r], u⟩ = .outOfFuel := by
  have hloop := synthLoop_maxInt (Getenv w "NIMBUS_DOMAIN") [] u fuel 1 r (by unfold maxInt; omega)
  simp only [validateAndSynthesize, List.length_singleton, ne_eq, not_true_eq_false,
    if_false, hd, hc, hloop]

theorem validateAndSynthesize_ok_inv (w : World) (fuel : Nat) (cfg c1 : Config)
    (h : validateAndSynthesize w fuel cfg = .done (c1, none)) :
    ∃ r n, cfg.HTTPRelays = [r] ∧ Getenv w "NIMBUS_DOMAIN" ≠ "" ∧
      Atoi (Getenv w "INFLUXDB_INSTANCE_COUNT") = .ok n ∧ minInt ≤ n ∧ n < maxInt ∧
      n.toNat < fuel ∧
      c1 = ⟨[{ r with Outputs :=
        r.Outputs ++ specOutputs (Getenv w "NIMBUS_DOMAIN") n.toNat }], cfg.UDPRelays⟩ := by
  obtain ⟨hs, u⟩ := cfg
  by_cases hlen : hs.length = 1
  · obtain ⟨r, rfl⟩ := List.length_eq_one.mp hlen
    by_cases hd : Getenv w "NIMBUS_DOMAIN" = ""
    · simp [validateAndSynthesize, hd] at h
    · cases hc : Atoi (Getenv w "INFLUXDB_INSTANCE_COUNT") with
      | error e => simp [validateAndSynthesize, hd, hc] at h
      | ok n =>
        have hr := Atoi_range _ _ hc
        by_cases hmax : n = maxInt
        · subst hmax
          rw [validateAndSynthesize_maxInt w fuel r u hd hc] at h
          cases h
        · have hlt : n < maxInt := lt_of_le_of_ne hr.2 hmax
          rw [validateAndSynthesize_count w fuel r u n hd hc hlt] at h
          split at h
          · rename_i hf
            cases h
            exact ⟨r, n, rfl, hd, rfl, hr.1, hlt, hf, rfl⟩
          · cases h
  · simp [validateAndSynthesize, hlen] at h

theorem validateAndSynthesize_error_inv (w : World) (fuel : Nat) (cfg c1 : Config) (e : GoError)
    (h : validateAndSynthesize w fuel cfg = .done (c1, some e)) :
    c1 = cfg ∧
      ((cfg.HTTPRelays.length ≠ 1 ∧ e = .errorString
          "HTTP Relays must contain exactly one output for Thermeon's relay fork") ∨
       (cfg.HTTPRelays.length = 1 ∧ Getenv w "NIMBUS_DOMAIN" = "" ∧
          e = .errorString "NIMBUS_DOMAIN env var must be set") ∨
       (cfg.HTTPRelays.length = 1 ∧ Getenv w "NIMBUS_DOMAIN" ≠ "" ∧
          ∃ ne, Atoi (Getenv w "INFLUXDB_INSTANCE_COUNT") = .error ne ∧
            e = .errorString ("Error with INFLUXDB_INSTANCE_COUNT env var: " ++ ne.Error w.quote))) := by
  unfold validateAndSynthesize at h
  split at h
  · rename_i hlen
    cases h
    exact ⟨rfl, Or.inl ⟨hlen, rfl⟩⟩
  · rename_i hlen
    have hlen1 : cfg.HTTPRelays.length = 1 := by simpa using hlen
    simp only at h
    split at h
    · rename_i hd
      cases h
      exact ⟨rfl, Or.inr (Or.inl ⟨hlen1, hd, rfl⟩)⟩
    · rename_i hd
      split at h
      · rename_i ne hc
        cases h
        exact ⟨rfl, Or.inr (Or.inr ⟨hlen1, hd, ne, hc, rfl⟩)⟩
      · split at h <;> cases h

theorem LoadConfigFile_ok_inv (w : World) (fuel : Nat) (f : String) (c1 : Config)
    (h : LoadConfigFile w fuel f = .done (c1, none)) :
    ∃ s cfg, w.openFile f = .ok s ∧ w.decode s = (cfg, none) ∧
      validateAndSynthesize w fuel cfg = .done (c1, none) := by
  unfold LoadConfigFile at h
  split at h
  · cases h
  · rename_i s ho
    split at h
    · cases h
    · rename_i cfg hdec
      exact ⟨s, cfg, ho, hdec, h⟩

theorem LoadConfigFile_decoded (w : World) (fuel : Nat) (f s : String) (cfg : Config)
    (ho : w.openFile f = .ok s) (hdec : w.decode s = (cfg, none)) :
    LoadConfigFile w fuel f = validateAndSynthesize w fuel cfg := by
  simp only [LoadConfigFile, ho, hdec]

theorem specOutputs_length (d : String) (n : Nat) : (specOutputs d n).length = n := by
  simp [specOutputs]

theorem String_append_left_cancel (a x y : String) (h : a ++ x = a ++ y) : x = y := by
  have h1 := congrArg String.data h
  simp only [String.data_append, List.append_cancel_left_eq] at h1
  exact String.ext h1

theorem String_append_right_cancel (x y b : String) (h : x ++ b = y ++ b) : x = y := by
  have h1 := congrArg String.data h
  simp only [String.data_append, List.append_cancel_right_eq] at h1
  exact String.ext h1

theorem name_injective (a b : Nat) (h : "influxdb" ++ Nat.repr a = "influxdb" ++ Nat.repr b) :
    a = b :=
  Nat_repr_injective a b (String_append_left_cancel _ _ _ h)

theorem location_injective (d : String) (a b : Nat)
    (h : "http://influxdb" ++ Nat.repr a ++ "." ++ d ++ "/write" =
      "http://influxdb" ++ Nat.repr b ++ "." ++ d ++ "/write") : a = b := by
  have h1 := String_append_right_cancel _ _ _ h
  have h2 := String_append_right_cancel _ _ _ h1
  have h3 := String_append_right_cancel _ _ _ h2
  exact Nat_repr_injective a b (String_append_left_cancel _ _ _ h3)

theorem specOutputs_names_nodup (d : String) (n : Nat) :
    ((specOutputs d n).map (fun o => o.Name)).Nodup := by
  simp only [specOutputs, List.map_map]
  apply List.Nodup.map _ (List.nodup_range' 1 n)
  intro a b h
  exact name_injective a b h

theorem specOutputs_locations_nodup (d : String) (n : Nat) :
    ((specOutputs d n).map (fun o => o.Location)).Nodup := by
  simp only [specOutputs, List.map_map]
  apply List.Nodup.map _ (List.nodup_range' 1 n)
  intro a b h
  exact location_injective d a b h

/-! ## Errors raised before and during validation -/

/-- C8: an error of `os.Open` or of the decoder is returned exactly as it is, for
every environment and every amount of fuel; after a failed open the returned
`Config` is the zero value, which has no HTTP relay and no UDP relay, and after
a failed decode it is what the decoder left, with no output synthesized. -/
theorem LoadConfigFile_propagates_early_errors (w : World) (fuel : Nat) (filename : String) :
    (∀ e, w.openFile filename = .error e →
      LoadConfigFile w fuel filename = .done (Config.zero, some e)) ∧
    (∀ s cfg e, w.openFile filename = .ok s → w.decode s = (cfg, some e) →
      LoadConfigFile w fuel filename = .done (cfg, some e)) ∧
    Config.zero.HTTPRelays = [] ∧ Config.zero.UDPRelays = [] := by
  refine ⟨?_, ?_, rfl, rfl⟩
  · intro e ho
    simp only [LoadConfigFile, ho]
  · intro s cfg e ho hdec
    simp only [LoadConfigFile, ho, hdec]

theorem LoadConfigFile_propagates_early_errors_witness :
    LoadConfigFile (demoWorld (demoConfig, none) (some "example.com") (some "3")) 0 "missing.toml"
        = .done (Config.zero, some (.external "open missing.toml: no such file or directory")) ∧
    LoadConfigFile (demoWorld (Config.zero, some (.external "toml: line 1: parse error"))
        (some "example.com") (some "3")) 0 "relay.toml"
        = .done (Config.zero, some (.external "toml: line 1: parse error")) :=
  ⟨(LoadConfigFile_propagates_early_errors _ 0 "missing.toml").1 _ rfl,
   (LoadConfigFile_propagates_early_errors _ 0 "relay.toml").2.1 "contents of relay.toml" _ _
     rfl rfl⟩

/-- C2: when the decoded `Config` does not hold exactly one HTTP relay, the loader
returns the validation error, whatever the environment holds; and whenever the
loader returns a nil error the returned `Config` holds exactly one HTTP relay. -/
theorem LoadConfigFile_validation (w : World) (filename : String) :
    (∀ s cfg, w.openFile filename = .ok s → w.decode s = (cfg, none) →
      cfg.HTTPRelays.length ≠ 1 → ∀ fuel,
      LoadConfigFile w fuel filename = .done (cfg, some (.errorString
        "HTTP Relays must contain exactly one output for Thermeon's relay fork"))) ∧
    (∀ fuel c1, LoadConfigFile w fuel filename = .done (c1, none) →
      c1.HTTPRelays.length = 1) := by
  constructor
  · intro s cfg ho hdec hlen fuel
    rw [LoadConfigFile_decoded w fuel filename s cfg ho hdec]
    simp only [validateAndSynthesize, hlen, ne_eq, not_false_eq_true, if_true]
  · intro fuel c1 h
    obtain ⟨s, cfg, _, _, hv⟩ := LoadConfigFile_ok_inv w fuel filename c1 h
    obtain ⟨r, n, _, _, _, _, _, _, hc1⟩ := validateAndSynthesize_ok_inv w fuel cfg c1 hv
    rw [hc1]
    rfl

theorem LoadConfigFile_validation_witness :
    LoadConfigFile (demoWorld (twoRelayConfig, none) (some "example.com") (some "3")) 0 "relay.toml"
        = .done (twoRelayConfig, some (.errorString
          "HTTP Relays must contain exactly one output for Thermeon's relay fork")) ∧
    LoadConfigFile (demoWorld (Config.zero, none) none none) 0 "relay.toml"
        = .done (Config.zero, some (.errorString
          "HTTP Relays must contain exactly one output for Thermeon's relay fork")) ∧
    (demoConfig.HTTPRelays).length = 1 :=
  ⟨(LoadConfigFile_validation _ "relay.toml").1 "contents of relay.toml" _ rfl rfl (by decide) 0,
   (LoadConfigFile_validation _ "relay.toml").1 "contents of relay.toml" _ rfl rfl (by decide) 0,
   (LoadConfigFile_validation
      (demoWorld (demoConfig, none) (some "example.com") (some "0")) "relay.toml").2 1
      demoConfig rfl⟩

/-- C3: with exactly one HTTP relay decoded, if `NIMBUS_DOMAIN` is unset or empty
the loader returns the error "NIMBUS_DOMAIN env var must be set", whatever
`INFLUXDB_INSTANCE_COUNT` holds. -/
theorem LoadConfigFile_requires_domain (w : World) (fuel : Nat) (filename s : String)
    (cfg : Config) (ho : w.openFile filename = .ok s) (hdec : w.decode s = (cfg, none))
    (hlen : cfg.HTTPRelays.length = 1)
    (hd : w.environ "NIMBUS_DOMAIN" = none ∨ w.environ "NIMBUS_DOMAIN" = some "") :
    LoadConfigFile w fuel filename =
      .done (cfg, some (.errorString "NIMBUS_DOMAIN env var must be set")) := by
  have hg : Getenv w "NIMBUS_DOMAIN" = "" := by
    rcases hd with h | h <;> simp [Getenv, h]
  rw [LoadConfigFile_decoded w fuel filename s cfg ho hdec]
  simp only [validateAndSynthesize, hlen, ne_eq, not_true_eq_false, if_false, hg, if_true]

theorem LoadConfigFile_requires_domain_witness :
    LoadConfigFile (demoWorld (demoConfig, none) none (some "3")) 0 "relay.toml"
        = .done (demoConfig, some (.errorString "NIMBUS_DOMAIN env var must be set")) ∧
    LoadConfigFile (demoWorld (demoConfig, none) (some "") none) 0 "relay.toml"
        = .done (demoConfig, some (.errorString "NIMBUS_DOMAIN env var must be set")) :=
  ⟨LoadConfigFile_requires_domain _ 0 "relay.toml" "contents of relay.toml" demoConfig rfl rfl
     (by decide) (Or.inl rfl),
   LoadConfigFile_requires_domain _ 0 "relay.toml" "contents of relay.toml" demoConfig rfl rfl
     (by decide) (Or.inr rfl)⟩

/-- C4: with exactly one HTTP relay decoded and a non-empty `NIMBUS_DOMAIN`, when
`strconv.Atoi` rejects the value of `INFLUXDB_INSTANCE_COUNT` with error `e`
the loader returns the error whose text is "Error with INFLUXDB_INSTANCE_COUNT
env var: " followed by the text of `e`. That is the case when the variable is
unset (it reads as the empty string) and whenever its value is not an optional
sign followed by decimal digits, as for "abc", "" and "3.5". -/
theorem LoadConfigFile_count_parse_error (w : World) (filename s : String) (cfg : Config)
    (ho : w.openFile filename = .ok s) (hdec : w.decode s = (cfg, none))
    (hlen : cfg.HTTPRelays.length = 1) (hd : Getenv w "NIMBUS_DOMAIN" ≠ "") :
    (∀ e, Atoi (Getenv w "INFLUXDB_INSTANCE_COUNT") = .error e → ∀ fuel,
      LoadConfigFile w fuel filename = .done (cfg, some (.errorString
        ("Error with INFLUXDB_INSTANCE_COUNT env var: " ++ e.Error w.quote)))) ∧
    (w.environ "INFLUXDB_INSTANCE_COUNT" = none → ∀ fuel,
      LoadConfigFile w fuel filename = .done (cfg, some (.errorString
        ("Error with INFLUXDB_INSTANCE_COUNT env var: " ++
          NumError.Error w.quote ⟨"Atoi", "", .ErrSyntax⟩)))) ∧
    (∀ c, w.environ "INFLUXDB_INSTANCE_COUNT" = some c → isDecimalInteger c = false →
      ∃ k, ∀ fuel, LoadConfigFile w fuel filename = .done (cfg, some (.errorString
        ("Error with INFLUXDB_INSTANCE_COUNT env var: " ++
          NumError.Error w.quote ⟨"Atoi", c, k⟩)))) ∧
    isDecimalInteger "abc" = false ∧ isDecimalInteger "" = false ∧
    isDecimalInteger "3.5" = false := by
  have key : ∀ e, Atoi (Getenv w "INFLUXDB_INSTANCE_COUNT") = .error e → ∀ fuel,
      LoadConfigFile w fuel filename = .done (cfg, some (.errorString
        ("Error with INFLUXDB_INSTANCE_COUNT env var: " ++ e.Error w.quote))) := by
    intro e he fuel
    rw [LoadConfigFile_decoded w fuel filename s cfg ho hdec]
    simp only [validateAndSynthesize, hlen, ne_eq, not_true_eq_false, if_false, hd, he]
  refine ⟨key, ?_, ?_, rfl, rfl, rfl⟩
  · intro hu
    apply key
    simp only [Getenv, hu, Option.getD_none]
    rfl
  · intro c hc hnot
    obtain ⟨k, hk⟩ := Atoi_error_of_not_decimal c hnot
    refine ⟨k, key _ ?_⟩
    simp only [Getenv, hc, Option.getD_some]
    exact hk

theorem LoadConfigFile_count_parse_error_witness :
    LoadConfigFile (demoWorld (demoConfig, none) (some "example.com") (some "abc")) 0 "relay.toml"
        = .done (demoConfig, some (.errorString
          ("Error with INFLUXDB_INSTANCE_COUNT env var: strconv.Atoi: parsing " ++
            demoQuote "abc" ++ ": invalid syntax"))) ∧
    LoadConfigFile (demoWorld (demoConfig, none) (some "example.com") none) 0 "relay.toml"
        = .done (demoConfig, some (.errorString
          ("Error with INFLUXDB_INSTANCE_COUNT env var: strconv.Atoi: parsing " ++
            demoQuote "" ++ ": invalid syntax"))) :=
  ⟨(LoadConfigFile_count_parse_error
      (demoWorld (demoConfig, none) (some "example.com") (some "abc")) "relay.toml"
      "contents of relay.toml" demoConfig rfl rfl (by decide) (by decide)).1
      ⟨"Atoi", "abc", .ErrSyntax⟩ rfl 0,
   (LoadConfigFile_count_parse_error
      (demoWorld (demoConfig, none) (some "example.com") none) "relay.toml"
      "contents of relay.toml" demoConfig rfl rfl (by decide) (by decide)).2.1 rfl 0⟩

/-! ## Error atomicity and frame -/

/-- C6: after a successful decode, when the loader returns a non-nil error that
error is the validation error or one of the two environment errors, and the
`Config` returned with it is exactly the decoded one: nothing was appended and
no field was changed. -/
theorem LoadConfigFile_error_keeps_config (w : World) (fuel : Nat) (filename s : String)
    (cfg c1 : Config) (e : GoError)
    (ho : w.openFile filename = .ok s) (hdec : w.decode s = (cfg, none))
    (h : LoadConfigFile w fuel filename = .done (c1, some e)) :
    c1 = cfg ∧
      (e = .errorString "HTTP Relays must contain exactly one output for Thermeon's relay fork" ∨
       e = .errorString "NIMBUS_DOMAIN env var must be set" ∨
       ∃ ne, Atoi (Getenv w "INFLUXDB_INSTANCE_COUNT") = .error ne ∧
         e = .errorString ("Error with INFLUXDB_INSTANCE_COUNT env var: " ++ ne.Error w.quote)) := by
  rw [LoadConfigFile_decoded w fuel filename s cfg ho hdec] at h
  obtain ⟨hc, hcase⟩ := validateAndSynthesize_error_inv w fuel cfg c1 e h
  refine ⟨hc, ?_⟩
  rcases hcase with ⟨_, he⟩ | ⟨_, _, he⟩ | ⟨_, _, ne, hne, he⟩
  · exact Or.inl he
  · exact Or.inr (Or.inl he)
  · exact Or.inr (Or.inr ⟨ne, hne, he⟩)

theorem LoadConfigFile_error_keeps_config_witness :
    demoConfig = demoConfig ∧
      (GoError.errorString "NIMBUS_DOMAIN env var must be set" =
          .errorString "HTTP Relays must contain exactly one output for Thermeon's relay fork" ∨
       GoError.errorString "NIMBUS_DOMAIN env var must be set" =
          .errorString "NIMBUS_DOMAIN env var must be set" ∨
       ∃ ne, Atoi (Getenv (demoWorld (demoConfig, none) none (some "3"))
            "INFLUXDB_INSTANCE_COUNT") = .error ne ∧
         GoError.errorString "NIMBUS_DOMAIN env var must be set" =
           .errorString ("Error with INFLUXDB_INSTANCE_COUNT env var: " ++
             ne.Error (demoWorld (demoConfig, none) none (some "3")).quote)) :=
  LoadConfigFile_error_keeps_config (demoWorld (demoConfig, none) none (some "3")) 0
    "relay.toml" "contents of relay.toml" demoConfig demoConfig
    (.errorString "NIMBUS_DOMAIN env var must be set") rfl rfl rfl

/-- C7: when the loader returns a nil error, the returned `Config` is the decoded
one except for the outputs of its single HTTP relay: the UDP relays and the
relay's name, address, certificate path and default retention policy are the
decoded ones, and the decoded outputs, unmodified and in their order, are
followed by the appended entries. -/
theorem LoadConfigFile_frame (w : World) (fuel : Nat) (filename s : String) (cfg c1 : Config)
    (ho : w.openFile filename = .ok s) (hdec : w.decode s = (cfg, none))
    (h : LoadConfigFile w fuel filename = .done (c1, none)) :
    ∃ r added, cfg.HTTPRelays = [r] ∧
      c1 = { HTTPRelays := [{ Name := r.Name, Addr := r.Addr, SSLCombinedPem := r.SSLCombinedPem,
                              DefaultRetentionPolicy := r.DefaultRetentionPolicy,
                              Outputs := r.Outputs ++ added }],
             UDPRelays := cfg.UDPRelays } := by
  rw [LoadConfigFile_decoded w fuel filename s cfg ho hdec] at h
  obtain ⟨r, n, hr, _, _, _, _, _, hc1⟩ := validateAndSynthesize_ok_inv w fuel cfg c1 h
  exact ⟨r, _, hr, hc1⟩

theorem LoadConfigFile_frame_witness :
    ∃ r added, demoConfig.HTTPRelays = [r] ∧
      demoConfigWith [⟨"influxdb1", "http://influxdb1.example.com/write", "", 100, 0, "", false⟩]
      = { HTTPRelays := [{ Name := r.Name, Addr := r.Addr, SSLCombinedPem := r.SSLCombinedPem,
                           DefaultRetentionPolicy := r.DefaultRetentionPolicy,
                           Outputs := r.Outputs ++ added }],
          UDPRelays := demoConfig.UDPRelays } :=
  LoadConfigFile_frame (demoWorld (demoConfig, none) (some "example.com") (some "1")) 2
    "relay.toml" "contents of relay.toml" demoConfig _ rfl rfl rfl

/-! ## Synthesis of the outputs -/

/-- With one HTTP relay decoded, a non-empty `NIMBUS_DOMAIN` value `d` and a count
that `strconv.Atoi` parses to `n` with `0 ≤ n` below the largest `int`, the loader
returns, given fuel for the `n + 1` evaluations of the loop condition, a nil
error and the decoded outputs followed by the `n` entries of `specOutputs d n`. -/
theorem LoadConfigFile_synthesizes_below_maxInt (w : World) (fuel : Nat) (filename s : String)
    (cfg : Config) (r : HTTPConfig) (d c : String) (n : Int)
    (ho : w.openFile filename = .ok s) (hdec : w.decode s = (cfg, none))
    (hr : cfg.HTTPRelays = [r])
    (hd : w.environ "NIMBUS_DOMAIN" = some d) (hne : d ≠ "")
    (hc : w.environ "INFLUXDB_INSTANCE_COUNT" = some c) (hn : Atoi c = .ok n)
    (h0 : 0 ≤ n) (hmax : n < maxInt) (hfuel : n.toNat < fuel) :
    LoadConfigFile w fuel filename =
      .done ({ cfg with HTTPRelays := [{ r with Outputs := r.Outputs ++ specOutputs d n.toNat }] },
        none) ∧
    (specOutputs d n.toNat).length = n.toNat ∧ (n.toNat : Int) = n := by
  have hgd : Getenv w "NIMBUS_DOMAIN" = d := by simp [Getenv, hd]
  have hgc : Getenv w "INFLUXDB_INSTANCE_COUNT" = c := by simp [Getenv, hc]
  refine ⟨?_, specOutputs_length d _, Int.toNat_of_nonneg h0⟩
  obtain ⟨hs, u⟩ := cfg
  simp only at hr
  subst hr
  rw [LoadConfigFile_decoded w fuel filename s _ ho hdec,
    validateAndSynthesize_count w fuel r u n (by rw [hgd]; exact hne) (by rw [hgc]; exact hn) hmax,
    if_pos hfuel, hgd]

theorem LoadConfigFile_synthesizes_below_maxInt_witness :
    LoadConfigFile (demoWorld (demoConfig, none) (some "example.com") (some "3")) 4 "relay.toml" =
      .done (demoConfigWith
        [⟨"influxdb1", "http://influxdb1.example.com/write", "", 100, 0, "", false⟩,
         ⟨"influxdb2", "http://influxdb2.example.com/write", "", 100, 0, "", false⟩,
         ⟨"influxdb3", "http://influxdb3.example.com/write", "", 100, 0, "", false⟩], none) ∧
    LoadConfigFile (demoWorld (demoConfig, none) (some "example.com") (some "0")) 1 "relay.toml" =
      .done (demoConfig, none) :=
  ⟨(LoadConfigFile_synthesizes_below_maxInt
      (demoWorld (demoConfig, none) (some "example.com") (some "3")) 4 "relay.toml"
      "contents of relay.toml" demoConfig _ "example.com" "3" 3 rfl rfl rfl rfl (by decide) rfl rfl
      (by decide) (by decide) (by decide)).1,
   (LoadConfigFile_synthesizes_below_maxInt
      (demoWorld (demoConfig, none) (some "example.com") (some "0")) 1 "relay.toml"
      "contents of relay.toml" demoConfig _ "example.com" "0" 0 rfl rfl rfl rfl (by decide) rfl rfl
      (by decide) (by decide) (by decide)).1⟩

/-- C1, at the count 9223372036854775807: the value is accepted by `strconv.Atoi`
as an integer `n ≥ 0` (the largest `int`), the file decodes to one HTTP relay and
`NIMBUS_DOMAIN` is `example.com`, yet the loader returns nothing, whatever the
fuel: the loop condition `i <= influxdbCount` holds for every `int` value of `i`. -/
theorem LoadConfigFile_maxInt_count_never_returns :
    Atoi "9223372036854775807" = .ok maxInt ∧ (0 : Int) ≤ maxInt ∧
    ∀ fuel, LoadConfigFile
      (demoWorld (demoConfig, none) (some "example.com") (some "9223372036854775807"))
      fuel "relay.toml" = .outOfFuel := by
  refine ⟨rfl, by decide, ?_⟩
  intro fuel
  rw [LoadConfigFile_decoded _ fuel "relay.toml" "contents of relay.toml" demoConfig rfl rfl]
  exact validateAndSynthesize_maxInt _ fuel _ _ (by decide) rfl

/-- C5 fails at the count "-1": `strconv.Atoi` accepts it as the integer -1, and the
loader returns a nil error with the decoded configuration unchanged. -/
theorem LoadConfigFile_accepts_negative_count :
    Atoi "-1" = .ok (-1) ∧
    LoadConfigFile (demoWorld (demoConfig, none) (some "example.com") (some "-1")) 1 "relay.toml" =
      .done (demoConfig, none) ∧
    ¬ ((0 : Int) ≤ -1) :=
  ⟨rfl, rfl, by decide⟩

/-- C5, amended: whenever the loader returns a nil error, `strconv.Atoi` accepts the
value of `INFLUXDB_INSTANCE_COUNT` as an integer `n` of the `int` range, positive,
zero or negative, and the entries appended to the decoded outputs are exactly
the `max n 0` entries of `specOutputs`: none when `n` is negative. -/
theorem LoadConfigFile_ok_count (w : World) (fuel : Nat) (filename : String) (c1 : Config)
    (h : LoadConfigFile w fuel filename = .done (c1, none)) :
    ∃ s cfg r n, w.openFile filename = .ok s ∧ w.decode s = (cfg, none) ∧
      cfg.HTTPRelays = [r] ∧
      Atoi (Getenv w "INFLUXDB_INSTANCE_COUNT") = .ok n ∧ minInt ≤ n ∧ n < maxInt ∧
      c1 = { cfg with HTTPRelays :=
        [{ r with Outputs := r.Outputs ++ specOutputs (Getenv w "NIMBUS_DOMAIN") n.toNat }] } ∧
      ((specOutputs (Getenv w "NIMBUS_DOMAIN") n.toNat).length : Int) = max n 0 := by
  obtain ⟨s, cfg, ho, hdec, hv⟩ := LoadConfigFile_ok_inv w fuel filename c1 h
  obtain ⟨r, n, hr, _, hn, hmin, hmax, _, hc1⟩ := validateAndSynthesize_ok_inv w fuel cfg c1 hv
  refine ⟨s, cfg, r, n, ho, hdec, hr, hn, hmin, hmax, hc1, ?_⟩
  rw [specOutputs_length]
  omega

theorem LoadConfigFile_ok_count_witness :
    ∃ s cfg r n,
      (demoWorld (demoConfig, none) (some "example.com") (some "-1")).openFile "relay.toml" = .ok s ∧
      (demoWorld (demoConfig, none) (some "example.com") (some "-1")).decode s = (cfg, none) ∧
      cfg.HTTPRelays = [r] ∧ Atoi "-1" = .ok n ∧ minInt ≤ n ∧ n < maxInt ∧
      demoConfig =
        { cfg with HTTPRelays := [{ r with Outputs := r.Outputs ++ specOutputs "example.com" n.toNat }] } ∧
      ((specOutputs "example.com" n.toNat).length : Int) = max n 0 :=
  LoadConfigFile_ok_count (demoWorld (demoConfig, none) (some "example.com") (some "-1")) 1
    "relay.toml" demoConfig rfl

/-! ## Repeated application and distinctness -/

/-- With one HTTP relay, a non-empty `NIMBUS_DOMAIN` value `d` and a count parsed
to `n` with `1 ≤ n` below the largest `int`, the validate-and-synthesize step
applied to its own result appends the `n` entries a second time: the outputs
become the original ones followed by `specOutputs d n` twice, `2 * n`
synthesized entries, and the result differs from that of one application. -/
theorem validateAndSynthesize_twice_below_maxInt (w : World) (fuel : Nat) (cfg : Config)
    (r : HTTPConfig) (n : Int) (hr : cfg.HTTPRelays = [r])
    (hd : Getenv w "NIMBUS_DOMAIN" ≠ "")
    (hc : Atoi (Getenv w "INFLUXDB_INSTANCE_COUNT") = .ok n)
    (h1 : 1 ≤ n) (hmax : n < maxInt) (hfuel : n.toNat < fuel) :
    ∃ c1 c2, validateAndSynthesize w fuel cfg = .done (c1, none) ∧
      validateAndSynthesize w fuel c1 = .done (c2, none) ∧
      c1 = { cfg with
        HTTPRelays := [{ r with
          Outputs := r.Outputs ++ specOutputs (Getenv w "NIMBUS_DOMAIN") n.toNat }] } ∧
      c2 = { cfg with
        HTTPRelays := [{ r with
          Outputs := r.Outputs ++ specOutputs (Getenv w "NIMBUS_DOMAIN") n.toNat ++
            specOutputs (Getenv w "NIMBUS_DOMAIN") n.toNat }] } ∧
      (specOutputs (Getenv w "NIMBUS_DOMAIN") n.toNat ++
        specOutputs (Getenv w "NIMBUS_DOMAIN") n.toNat).length = 2 * n.toNat ∧
      c2 ≠ c1 := by
  obtain ⟨hs, u⟩ := cfg
  simp only at hr
  subst hr
  refine ⟨_, _, ?_, ?_, rfl, rfl, ?_, ?_⟩
  · rw [validateAndSynthesize_count w fuel r u n hd hc hmax, if_pos hfuel]
  · rw [validateAndSynthesize_count w fuel _ u n hd hc hmax, if_pos hfuel]
  · rw [List.length_append, specOutputs_length]
    omega
  · intro heq
    have hlen := congrArg (fun c : Config => (c.HTTPRelays.map (fun x => x.Outputs.length))) heq
    simp only [List.map_cons, List.map_nil, List.length_append, specOutputs_length,
      List.cons.injEq, and_true] at hlen
    omega

theorem validateAndSynthesize_twice_below_maxInt_witness :
    ∃ c1 c2,
      validateAndSynthesize (demoWorld (demoConfig, none) (some "example.com") (some "1")) 2
        demoConfig = .done (c1, none) ∧
      validateAndSynthesize (demoWorld (demoConfig, none) (some "example.com") (some "1")) 2
        c1 = .done (c2, none) ∧
      c1 = demoConfigWith (specOutputs "example.com" 1) ∧
      c2 = demoConfigWith (specOutputs "example.com" 1 ++ specOutputs "example.com" 1) ∧
      (specOutputs "example.com" 1 ++ specOutputs "example.com" 1).length = 2 * 1 ∧
      c2 ≠ c1 :=
  validateAndSynthesize_twice_below_maxInt
    (demoWorld (demoConfig, none) (some "example.com") (some "1")) 2 demoConfig _ 1 rfl
    (by decide) rfl (by decide) (by decide) (by decide)

/-- C9, at the count 9223372036854775807: the value parses to an integer `n ≥ 1`,
the `Config` has one HTTP relay and `NIMBUS_DOMAIN` is `example.com`, yet the
validate-and-synthesize step has no result, whatever the fuel, so there is
nothing to apply it to a second time. -/
theorem validateAndSynthesize_maxInt_count_never_returns :
    Atoi "9223372036854775807" = .ok maxInt ∧ (1 : Int) ≤ maxInt ∧
    demoConfig.HTTPRelays.length = 1 ∧
    ∀ fuel, validateAndSynthesize
      (demoWorld (demoConfig, none) (some "example.com") (some "9223372036854775807"))
      fuel demoConfig = .outOfFuel := by
  refine ⟨rfl, by decide, rfl, ?_⟩
  intro fuel
  exact validateAndSynthesize_maxInt _ fuel _ _ (by decide) rfl

/-- C10: for every domain the entries built for two different loop indices `i ≥ 1`
and `j ≥ 1` differ in `Name` and in `Location`; and in every `Config` that the
loader returns with a nil error, the entries appended to the decoded outputs
have pairwise distinct names and pairwise distinct locations. -/
theorem synthesized_outputs_distinct (d : String) :
    (∀ i j : Int, 1 ≤ i → 1 ≤ j → i ≠ j →
      (outputConfig i d).Name ≠ (outputConfig j d).Name ∧
      (outputConfig i d).Location ≠ (outputConfig j d).Location) ∧
    (∀ w fuel filename c1, Getenv w "NIMBUS_DOMAIN" = d →
      LoadConfigFile w fuel filename = .done (c1, none) →
      ∃ s cfg r n, w.openFile filename = .ok s ∧ w.decode s = (cfg, none) ∧
        cfg.HTTPRelays = [r] ∧
        c1.HTTPRelays = [{ r with Outputs := r.Outputs ++ synthFrom d 1 n }] ∧
        ((synthFrom d 1 n).map (fun o => o.Name)).Nodup ∧
        ((synthFrom d 1 n).map (fun o => o.Location)).Nodup) := by
  constructor
  · intro i j hi hj hij
    obtain ⟨a, rfl⟩ := Int.eq_ofNat_of_zero_le (by omega : 0 ≤ i)
    obtain ⟨b, rfl⟩ := Int.eq_ofNat_of_zero_le (by omega : 0 ≤ j)
    have hab : a ≠ b := fun h => hij (by rw [h])
    simp only [outputConfig, fmtD_ofNat]
    exact ⟨fun h => hab (name_injective a b h), fun h => hab (location_injective d a b h)⟩
  · intro w fuel filename c1 hd h
    obtain ⟨s, cfg, ho, hdec, hv⟩ := LoadConfigFile_ok_inv w fuel filename c1 h
    obtain ⟨r, n, hr, _, _, _, _, _, hc1⟩ := validateAndSynthesize_ok_inv w fuel cfg c1 hv
    rw [hd] at hc1
    refine ⟨s, cfg, r, n.toNat, ho, hdec, hr, ?_, ?_, ?_⟩
    · rw [hc1, synthFrom_one_eq_specOutputs]
    · rw [synthFrom_one_eq_specOutputs]
      exact specOutputs_names_nodup d _
    · rw [synthFrom_one_eq_specOutputs]
      exact specOutputs_locations_nodup d _

theorem synthesized_outputs_distinct_witness :
    ((outputConfig 1 "example.com").Name ≠ (outputConfig 10 "example.com").Name ∧
      (outputConfig 1 "example.com").Location ≠ (outputConfig 10 "example.com").Location) ∧
    ∃ s cfg r n,
      (demoWorld (demoConfig, none) (some "example.com") (some "3")).openFile "relay.toml" = .ok s ∧
      (demoWorld (demoConfig, none) (some "example.com") (some "3")).decode s = (cfg, none) ∧
      cfg.HTTPRelays = [r] ∧
      (demoConfigWith (specOutputs "example.com" 3)).HTTPRelays =
        [{ r with Outputs := r.Outputs ++ synthFrom "example.com" 1 n }] ∧
      ((synthFrom "example.com" 1 n).map (fun o => o.Name)).Nodup ∧
      ((synthFrom "example.com" 1 n).map (fun o => o.Location)).Nodup :=
  ⟨(synthesized_outputs_distinct "example.com").1 1 10 (by decide) (by decide) (by decide),
   (synthesized_outputs_distinct "example.com").2
     (demoWorld (demoConfig, none) (some "example.com") (some "3")) 4 "relay.toml"
     (demoConfigWith (specOutputs "example.com" 3)) rfl rfl⟩

end Relay
